import Mathlib

/-
Verification development for the botemail repository
(src/stock-ws-emailer.js): a single-process Node service that polls a
game API for stock and weather data, keeps in-memory Maps of
subscriptions, verified emails and pending verification tokens, and
fans out notification emails.

The embedding below translates the relevant JavaScript into Lean:
  * JS `Map` objects become association lists over String keys
    (`MapL`), with `get`/`set`/`delete`/`has` modelled by `mget`,
    `mset`, `mdelete`, `mhas`.  `Map.set` never leaves two live
    entries for the same key, which `mset` mirrors by erasing the key
    first.
  * JS `Set` objects built from an item array are modelled by the
    underlying `List String`; `Set.has` is `List.contains`.
  * The module-level mutable variables (`pendingVerifications`,
    `verifiedEmails`, `subscriptions`, `latestStockDataJSON`,
    `latestStockDataObj`, `latestWeatherDataJSON`,
    `latestWeatherDataObj`) become the fields of `ServerState`;
    each HTTP handler and scheduled task becomes a pure function from
    a state (plus request data) to a new state and its observable
    output.
  * `JSON.stringify data` is deterministic, so the serialized string
    is passed alongside the parsed structure; where a proof needs the
    serialization to be deterministic and injective on the two
    snapshots at hand, that is an explicit hypothesis.
  * `Date.now()` timestamps are `Nat` milliseconds supplied as
    arguments.  JS falsy checks on request strings (`if (!email)`)
    become comparisons with the empty string, which also covers the
    missing-field case after `?.trim()`.
-/

namespace Botemail

/-- Association-list model of a JS `Map` keyed by strings. -/
abbrev MapL (α : Type) : Type := List (String × α)

/-- Model of `Map.get(k)`: the value bound to `k`, or `none` when absent. -/
def mget {α : Type} : MapL α → String → Option α
  | [], _ => none
  | p :: t, k => if p.1 = k then some p.2 else mget t k

/-- Model of `Map.delete(k)`: remove the binding for `k`. -/
def mdelete {α : Type} : MapL α → String → MapL α
  | [], _ => []
  | p :: t, k => if p.1 = k then mdelete t k else p :: mdelete t k

/-- Model of `Map.set(k, v)`: bind `k` to `v`, replacing any previous binding. -/
def mset {α : Type} (m : MapL α) (k : String) (v : α) : MapL α :=
  (k, v) :: mdelete m k

/-- Model of `Map.has(k)`. -/
def mhas {α : Type} (m : MapL α) (k : String) : Bool :=
  (mget m k).isSome

theorem mget_nil {α : Type} (k : String) : mget ([] : MapL α) k = none := rfl

theorem mget_cons {α : Type} (p : String × α) (t : MapL α) (k : String) :
    mget (p :: t) k = if p.1 = k then some p.2 else mget t k := rfl

theorem mget_mdelete {α : Type} (m : MapL α) (k q : String) :
    mget (mdelete m k) q = if q = k then none else mget m q := by
  induction m with
  | nil => by_cases h : q = k <;> simp [mget, mdelete, h]
  | cons p t ih =>
    by_cases hpk : p.1 = k
    · rw [mdelete, if_pos hpk, ih]
      by_cases hqk : q = k
      · simp [hqk]
      · have hpq : p.1 ≠ q := by
          rw [hpk]
          exact fun h => hqk h.symm
        simp [hqk, mget_cons, hpq]
    · rw [mdelete, if_neg hpk, mget_cons, mget_cons, ih]
      by_cases hqk : q = k
      · subst hqk
        simp [hpk]
      · simp [hqk]

theorem mget_mdelete_self {α : Type} (m : MapL α) (k : String) :
    mget (mdelete m k) k = none := by
  simp [mget_mdelete]

theorem mget_mdelete_ne {α : Type} (m : MapL α) (k q : String) (h : q ≠ k) :
    mget (mdelete m k) q = mget m q := by
  simp [mget_mdelete, h]

theorem mget_mset_self {α : Type} (m : MapL α) (k : String) (v : α) :
    mget (mset m k v) k = some v := by
  simp [mset, mget_cons]

theorem mget_mset_ne {α : Type} (m : MapL α) (k q : String) (v : α) (h : q ≠ k) :
    mget (mset m k v) q = mget m q := by
  have hk : k ≠ q := fun hkq => h hkq.symm
  simp [mset, mget_cons, hk, mget_mdelete_ne m k q h]

theorem mhas_iff {α : Type} (m : MapL α) (k : String) :
    mhas m k = true ↔ ∃ v, mget m k = some v := by
  simp [mhas, Option.isSome_iff_exists]

/-- A surviving binding of a filtered map was a binding of the
original map and satisfies the filter predicate. -/
theorem mget_filter_mem {α : Type} (m : MapL α) (pred : String × α → Bool)
    (k : String) (v : α) (h : mget (List.filter pred m) k = some v) :
    (k, v) ∈ m ∧ pred (k, v) = true := by
  induction m with
  | nil => simp [List.filter_nil, mget] at h
  | cons p t ih =>
    by_cases hp : pred p = true
    · rw [List.filter_cons_of_pos hp, mget_cons] at h
      by_cases hk : p.1 = k
      · rw [if_pos hk] at h
        have hv : p.2 = v := by injection h
        have hpk : p = (k, v) := by
          cases p
          simp_all
        constructor
        · rw [← hpk]
          exact List.mem_cons_self p t
        · rw [← hpk]
          exact hp
      · rw [if_neg hk] at h
        rcases ih h with ⟨h1, h2⟩
        exact ⟨List.mem_cons_of_mem p h1, h2⟩
    · rw [List.filter_cons_of_neg (by simpa using hp)] at h
      rcases ih h with ⟨h1, h2⟩
      exact ⟨List.mem_cons_of_mem p h1, h2⟩

/-- A binding whose entry satisfies the filter predicate survives
filtering with its value unchanged. -/
theorem mget_filter_of_pred {α : Type} (m : MapL α) (pred : String × α → Bool)
    (k : String) (v : α) (hv : mget m k = some v) (hp : pred (k, v) = true) :
    mget (List.filter pred m) k = some v := by
  induction m with
  | nil => simp [mget] at hv
  | cons p t ih =>
    rw [mget_cons] at hv
    by_cases hk : p.1 = k
    · rw [if_pos hk] at hv
      have hv2 : p.2 = v := by injection hv
      have hpk : p = (k, v) := by
        cases p
        simp_all
      rw [hpk, List.filter_cons_of_pos hp, mget_cons]
      simp
    · rw [if_neg hk] at hv
      by_cases hpp : pred p = true
      · rw [List.filter_cons_of_pos hpp, mget_cons, if_neg hk]
        exact ih hv
      · rw [List.filter_cons_of_neg (by simpa using hpp)]
        exact ih hv

/-- When keys are distinct, a filter that rejects the unique binding
for `k` makes `k` absent. -/
theorem mget_filter_of_not_pred {α : Type} (m : MapL α) (pred : String × α → Bool)
    (k : String) (v : α) (hnd : (m.map Prod.fst).Nodup)
    (hv : mget m k = some v) (hp : pred (k, v) = false) :
    mget (List.filter pred m) k = none := by
  induction m with
  | nil => simp [mget] at hv
  | cons p t ih =>
    rw [mget_cons] at hv
    rw [List.map_cons, List.nodup_cons] at hnd
    by_cases hk : p.1 = k
    · rw [if_pos hk] at hv
      have hv2 : p.2 = v := by injection hv
      have hpk : p = (k, v) := by
        cases p
        simp_all
      rw [hpk, List.filter_cons_of_neg (by simpa using hp)]
      rcases h : mget (List.filter pred t) k with _ | w
      · rfl
      · exfalso
        have hmem := (mget_filter_mem t pred k w h).1
        have hkm : k ∈ t.map Prod.fst := List.mem_map.mpr ⟨(k, w), hmem, rfl⟩
        rw [hpk] at hnd
        exact hnd.1 hkm
    · rw [if_neg hk] at hv
      by_cases hpp : pred p = true
      · rw [List.filter_cons_of_pos hpp, mget_cons, if_neg hk]
        exact ih hnd.2 hv
      · rw [List.filter_cons_of_neg (by simpa using hpp)]
        exact ih hnd.2 hv

/-- One entry of a stock category array in the upstream payload.
Only `item_id` and `quantity` drive the selection logic; the display
name is carried for the rendered rows. -/
structure StockItem where
  item_id : String
  display_name : String
  quantity : Nat
  deriving DecidableEq, Repr

/-- The parsed stock payload: the five category arrays that
`buildStockHtmlEmail` flattens (seed_stock, gear_stock, egg_stock,
cosmetic_stock, event_stock). -/
structure StockSnapshot where
  seed_stock : List StockItem
  gear_stock : List StockItem
  egg_stock : List StockItem
  cosmetic_stock : List StockItem
  event_stock : List StockItem
  deriving DecidableEq, Repr

/-- One entry of the weather array in the upstream payload. -/
structure WeatherEvent where
  weather_id : String
  weather_name : String
  active : Bool
  duration : Nat
  deriving DecidableEq, Repr

/-- The parsed weather payload. -/
structure WeatherSnapshot where
  weather : List WeatherEvent
  discord_invite : Option String
  deriving DecidableEq, Repr

/-- A pendingVerifications entry: `\x7b token, timestamp \x7d`. -/
structure Pending where
  token : String
  timestamp : Nat
  deriving DecidableEq, Repr

/-- A verifiedEmails entry: `\x7b verified: true, timestamp \x7d`. -/
structure VerifiedMark where
  verified : Bool
  timestamp : Nat
  deriving DecidableEq, Repr

/-- The content of a composed stock email: the item rows it lists and
the recipient whose unsubscribe link it embeds.  The HTML styling
around this content is presentation only. -/
structure StockMessage where
  items : List StockItem
  recipient : String
  deriving DecidableEq, Repr

/-- The observable HTTP response of a handler. -/
inductive HttpResp where
  | ok (message : String) : HttpResp
  | bad (message : String) : HttpResp
  | redirect (location : String) : HttpResp
  | text (message : String) : HttpResp
  deriving DecidableEq, Repr

/-- Outcome of the asynchronous mail relay interaction inside
`sendVerificationEmail`: the `transporter.verify` callback fails, or
`transporter.sendMail` fails, or the mail goes out. -/
inductive MailOutcome where
  | smtpError (msg : String) : MailOutcome
  | sendError (msg : String) : MailOutcome
  | sent (response : String) : MailOutcome
  deriving DecidableEq, Repr

/-- The module-level mutable state of stock-ws-emailer.js. -/
structure ServerState where
  pendingVerifications : MapL Pending
  verifiedEmails : MapL VerifiedMark
  subscriptions : MapL (List String)
  latestStockDataJSON : Option String
  latestStockDataObj : Option StockSnapshot
  latestWeatherDataJSON : Option String
  latestWeatherDataObj : Option WeatherSnapshot
  deriving DecidableEq, Repr

/-- The state at process start: every map empty, no snapshot seen. -/
def initialState : ServerState :=
  { pendingVerifications := []
    verifiedEmails := []
    subscriptions := []
    latestStockDataJSON := none
    latestStockDataObj := none
    latestWeatherDataJSON := none
    latestWeatherDataObj := none }

/-- Model of `hasDataChanged(oldJSON, newJSON)`: strict string inequality; the
stored value is `null` before the first successful poll. -/
def hasDataChanged (oldJSON : Option String) (newJSON : String) : Bool :=
  decide (oldJSON ≠ some newJSON)

/-- The flattening step of `buildStockHtmlEmail`: the five category
arrays concatenated in source order. -/
def allStockItems (data : StockSnapshot) : List StockItem :=
  data.seed_stock ++ data.gear_stock ++ data.egg_stock ++
    data.cosmetic_stock ++ data.event_stock

/-- The selection step of `buildStockHtmlEmail`:
`allStockItems.filter(item => userSelections.has(item.item_id) && item.quantity > 0)`. -/
def inStockItems (userSelections : List String) (data : StockSnapshot) :
    List StockItem :=
  (allStockItems data).filter
    (fun item => userSelections.contains item.item_id && decide (item.quantity > 0))

/-- Model of `buildStockHtmlEmail(data, recipientEmail)`: `none` models the
JS `null` return (recipient not subscribed, or no selected item in
stock); otherwise the composed message content. -/
def buildStockHtmlEmail (subscriptions : MapL (List String))
    (data : StockSnapshot) (recipientEmail : String) : Option StockMessage :=
  match mget subscriptions recipientEmail with
  | none => none
  | some userSelections =>
    let inStock := inStockItems userSelections data
    if inStock.length > 0 then some ⟨inStock, recipientEmail⟩ else none

/-- Model of `data.weather?.find(w => w.active)`. -/
def activeEventOf (data : WeatherSnapshot) : Option WeatherEvent :=
  data.weather.find? (fun w => w.active)

/-- One tick of `pollStockAPI` after a successful fetch, given the
parsed payload and its `JSON.stringify` form.  Returns the new state
and the (recipient, message) pairs handed to `sendEmail`. -/
def pollStockStep (st : ServerState) (data : StockSnapshot)
    (newDataJSON : String) : ServerState × List (String × StockMessage) :=
  if hasDataChanged st.latestStockDataJSON newDataJSON then
    let st2 := { st with latestStockDataJSON := some newDataJSON
                         latestStockDataObj := some data }
    let sends := st.subscriptions.filterMap (fun p =>
      match buildStockHtmlEmail st.subscriptions data p.1 with
      | some m => some (p.1, m)
      | none => none)
    (st2, sends)
  else
    (st, [])

/-- One tick of `pollWeatherAPI` after a successful fetch, given the
parsed payload and its `JSON.stringify` form.  Returns the new state
and the list of recipients of the weather notification. -/
def pollWeatherStep (st : ServerState) (data : WeatherSnapshot)
    (newDataJSON : String) : ServerState × List String :=
  if hasDataChanged st.latestWeatherDataJSON newDataJSON then
    let activeEvent := activeEventOf data
    let prevActiveEvent :=
      match st.latestWeatherDataObj with
      | some prev => activeEventOf prev
      | none => none
    let sends : List String :=
      match activeEvent, prevActiveEvent with
      | some _, none => st.subscriptions.map Prod.fst
      | some a, some p =>
        if a.weather_id ≠ p.weather_id then st.subscriptions.map Prod.fst
        else []
      | none, _ => []
    ({ st with latestWeatherDataJSON := some newDataJSON
               latestWeatherDataObj := some data }, sends)
  else
    (st, [])

/-- Model of `sendVerificationEmail(email)`: registers the pending token
before any relay interaction; the relay outcome only contributes log
lines.  The random token and current time are passed in. -/
def sendVerificationEmail (st : ServerState) (email token : String)
    (now : Nat) (outcome : MailOutcome) : ServerState × List String :=
  let st2 := { st with
    pendingVerifications := mset st.pendingVerifications email ⟨token, now⟩ }
  match outcome with
  | .smtpError m => (st2, ["SMTP connection error: " ++ m])
  | .sendError m =>
    (st2, ["SMTP connection verified",
           "Error sending verification email to " ++ email ++ ": " ++ m])
  | .sent r =>
    (st2, ["SMTP connection verified",
           "Verification email sent to " ++ email ++ ": " ++ r])

/-- The `POST /request-verification` handler.  The response is
produced synchronously, before the mail relay reports anything. -/
def requestVerificationEndpoint (st : ServerState) (email token : String)
    (now : Nat) (outcome : MailOutcome) : ServerState × HttpResp × List String :=
  if email = "" then
    (st, .bad ("Email is required."), [])
  else if mhas st.subscriptions email then
    (st, .bad ("Email is already subscribed."), [])
  else
    let sent := sendVerificationEmail st email token now outcome
    (sent.1, .ok ("Verification email sent. Please check your inbox."), sent.2)

/-- The `GET /verify` handler.  The Bool is `true` exactly on the
redirect-to-success path. -/
def verifyEndpoint (st : ServerState) (email token : String) (now : Nat) :
    ServerState × Bool :=
  if email = "" ∨ token = "" then (st, false)
  else
    match mget st.pendingVerifications email with
    | none => (st, false)
    | some verification =>
      if verification.token = token then
        ({ st with
            pendingVerifications := mdelete st.pendingVerifications email
            verifiedEmails := mset st.verifiedEmails email ⟨true, now⟩ },
          true)
      else (st, false)

/-- The `POST /subscribe` handler.  The Bool is `true` exactly on the
success path; the stored watch set is the item list (JS builds
`new Set(items)`, whose membership test coincides with membership in
the list). -/
def subscribeEndpoint (st : ServerState) (email : String)
    (items : List String) : ServerState × Bool :=
  if email = "" ∨ items.length = 0 then (st, false)
  else if mhas st.verifiedEmails email then
    ({ st with subscriptions := mset st.subscriptions email items }, true)
  else (st, false)

/-- The `GET /unsub` handler. -/
def unsubEndpoint (st : ServerState) (email : String) :
    ServerState × HttpResp :=
  if email = "" then (st, .bad ("Email is required."))
  else if mhas st.subscriptions email then
    ({ st with subscriptions := mdelete st.subscriptions email
               verifiedEmails := mdelete st.verifiedEmails email },
      .redirect ("/?unsubscribed=true"))
  else (st, .text ("Email not found in subscriptions."))

/-- Twenty-four hours in milliseconds. -/
def expirationTime : Nat := 24 * 60 * 60 * 1000

/-- The hourly sweep: delete every pending verification strictly
older than 24 hours. -/
def expirySweep (st : ServerState) (now : Nat) : ServerState :=
  let kept := st.pendingVerifications.filter
    (fun p => !(decide (now - p.2.timestamp > expirationTime)))
  { st with pendingVerifications := kept }

/-- The states reachable from process start through the HTTP handlers
and the scheduled tasks. -/
inductive Reachable : ServerState → Prop where
  | init : Reachable initialState
  | requestVerification (st : ServerState) (email token : String) (now : Nat)
      (outcome : MailOutcome) (h : Reachable st) :
      Reachable (requestVerificationEndpoint st email token now outcome).1
  | verify (st : ServerState) (email token : String) (now : Nat)
      (h : Reachable st) : Reachable (verifyEndpoint st email token now).1
  | subscribe (st : ServerState) (email : String) (items : List String)
      (h : Reachable st) : Reachable (subscribeEndpoint st email items).1
  | unsub (st : ServerState) (email : String) (h : Reachable st) :
      Reachable (unsubEndpoint st email).1
  | sweep (st : ServerState) (now : Nat) (h : Reachable st) :
      Reachable (expirySweep st now)
  | pollStock (st : ServerState) (data : StockSnapshot) (json : String)
      (h : Reachable st) : Reachable (pollStockStep st data json).1
  | pollWeather (st : ServerState) (data : WeatherSnapshot) (json : String)
      (h : Reachable st) : Reachable (pollWeatherStep st data json).1

/-- A one-subscriber subscription map used to evaluate the composer
on the concrete example of the specification. -/
def demoSubs : MapL (List String) := [(("u@x.com"), ["itemA", "itemB"])]

/-- A snapshot with itemA in stock (qty 3), itemB out of stock and
itemC (unwatched) in stock. -/
def demoSnapshot : StockSnapshot :=
  { seed_stock := [⟨("itemA"), ("A"), 3⟩, ⟨("itemB"), ("B"), 0⟩]
    gear_stock := [⟨("itemC"), ("C"), 5⟩]
    egg_stock := []
    cosmetic_stock := []
    event_stock := [] }

/-- Like `demoSnapshot` but with itemA also out of stock. -/
def demoSnapshotEmpty : StockSnapshot :=
  { seed_stock := [⟨("itemA"), ("A"), 0⟩, ⟨("itemB"), ("B"), 0⟩]
    gear_stock := [⟨("itemC"), ("C"), 5⟩]
    egg_stock := []
    cosmetic_stock := []
    event_stock := [] }

/-- Claim C3: the change detector reports changed=false exactly when
the two serialized payloads are equal, and changed=true exactly when
they differ. -/
theorem hasDataChanged_iff_ne (j1 j2 : String) :
    (hasDataChanged (some j1) j2 = false ↔ j1 = j2)
    ∧ (hasDataChanged (some j1) j2 = true ↔ j1 ≠ j2) := by
  have key : hasDataChanged (some j1) j2 = true ↔ j1 ≠ j2 := by
    unfold hasDataChanged
    rw [decide_eq_true_eq]
    exact ⟨fun h hj => h (by rw [hj]), fun h hj => h (Option.some.inj hj)⟩
  refine ⟨⟨fun h => ?_, fun h => ?_⟩, key⟩
  · by_contra hne
    have htrue := key.mpr hne
    rw [h] at htrue
    exact Bool.false_ne_true htrue
  · subst h
    simp [hasDataChanged]

/-- Concrete evaluation of `hasDataChanged_iff_ne`: equal serialized
payloads are not a change, distinct ones are. -/
theorem hasDataChanged_iff_ne_witness :
    hasDataChanged (some ("p1")) ("p1") = false
    ∧ hasDataChanged (some ("p1")) ("p2") = true :=
  ⟨(hasDataChanged_iff_ne ("p1") ("p1")).1.mpr rfl,
   (hasDataChanged_iff_ne ("p1") ("p2")).2.mpr (by decide)⟩

/-- Claim C1: for a subscriber with watch set `sel`, the composer
selects exactly the items of the flattened snapshot that are both
watched and have positive quantity, and returns `none` (no message)
when that selection is empty. -/
theorem buildStockHtmlEmail_selects (subs : MapL (List String))
    (data : StockSnapshot) (email : String) (sel : List String)
    (hsub : mget subs email = some sel) :
    (buildStockHtmlEmail subs data email =
      if inStockItems sel data = [] then none
      else some ⟨inStockItems sel data, email⟩)
    ∧ ∀ it : StockItem, it ∈ inStockItems sel data ↔
        (it ∈ allStockItems data ∧ sel.contains it.item_id = true
          ∧ it.quantity > 0) := by
  constructor
  · simp only [buildStockHtmlEmail, hsub]
    by_cases h : inStockItems sel data = []
    · simp [h]
    · have hl : (inStockItems sel data).length > 0 :=
        List.length_pos.mpr h
      simp [h, hl]
  · intro it
    rw [inStockItems, List.mem_filter]
    simp [and_assoc]

/-- Concrete evaluation of `buildStockHtmlEmail_selects` on the
example of the specification: watch set containing itemA and itemB,
snapshot with itemA qty 3, itemB qty 0, itemC qty 5 — the message
lists only itemA; with itemA at qty 0 too, no message is produced. -/
theorem buildStockHtmlEmail_selects_witness :
    buildStockHtmlEmail demoSubs demoSnapshot ("u@x.com") =
      some ⟨[⟨("itemA"), ("A"), 3⟩], ("u@x.com")⟩
    ∧ buildStockHtmlEmail demoSubs demoSnapshotEmpty ("u@x.com") = none := by
  constructor
  · have h := (buildStockHtmlEmail_selects demoSubs demoSnapshot ("u@x.com")
      (["itemA", "itemB"]) (by decide)).1
    rw [h]
    decide
  · have h := (buildStockHtmlEmail_selects demoSubs demoSnapshotEmpty ("u@x.com")
      (["itemA", "itemB"]) (by decide)).1
    rw [h]
    decide

/-- Claim C2: for two consecutive weather snapshots (the previous one
recorded in the state together with its serialization, the
serialization being deterministic and injective on the pair): an
unchanged active weather_id sends nothing; a change of active event
(from none, or to a different identifier) sends exactly one
notification to each current subscriber; the event ending sends
nothing. -/
theorem pollWeatherAPI_secondOrder (st : ServerState)
    (d1 d2 : WeatherSnapshot) (j1 j2 : String)
    (hobj : st.latestWeatherDataObj = some d1)
    (hjson : st.latestWeatherDataJSON = some j1)
    (hser : j2 = j1 ↔ d2 = d1)
    (hnd : (st.subscriptions.map Prod.fst).Nodup) :
    ((∃ e1 e2, activeEventOf d1 = some e1 ∧ activeEventOf d2 = some e2 ∧
        e2.weather_id = e1.weather_id) → (pollWeatherStep st d2 j2).2 = [])
    ∧ (∀ e2, activeEventOf d2 = some e2 →
        (activeEventOf d1 = none ∨
          ∃ e1, activeEventOf d1 = some e1 ∧ e2.weather_id ≠ e1.weather_id) →
        (pollWeatherStep st d2 j2).2 = st.subscriptions.map Prod.fst
          ∧ ∀ e, e ∈ st.subscriptions.map Prod.fst →
              ((pollWeatherStep st d2 j2).2).count e = 1)
    ∧ (activeEventOf d2 = none → (pollWeatherStep st d2 j2).2 = []) := by
  by_cases hch : j2 = j1
  · have hd : d2 = d1 := hser.mp hch
    have hnochange : hasDataChanged st.latestWeatherDataJSON j2 = false := by
      rw [hjson, hch]
      simp [hasDataChanged]
    have hstep : pollWeatherStep st d2 j2 = (st, []) := by
      rw [pollWeatherStep, hnochange]
      rfl
    refine ⟨fun _ => by rw [hstep], fun e2 he2 hprev => ?_, fun _ => by rw [hstep]⟩
    exfalso
    rw [hd] at he2
    rcases hprev with hnone | ⟨e1, he1, hne⟩
    · rw [hnone] at he2
      exact Option.noConfusion he2
    · rw [he1] at he2
      exact hne (congrArg WeatherEvent.weather_id (Option.some.inj he2).symm)
  · have hchange : hasDataChanged st.latestWeatherDataJSON j2 = true := by
      rw [hjson]
      exact (hasDataChanged_iff_ne j1 j2).2.mpr (fun h => hch h.symm)
    have hsends : (pollWeatherStep st d2 j2).2 =
        (match activeEventOf d2,
              (match st.latestWeatherDataObj with
                | some prev => activeEventOf prev
                | none => none) with
          | some _, none => st.subscriptions.map Prod.fst
          | some a, some p =>
            if a.weather_id ≠ p.weather_id then st.subscriptions.map Prod.fst
            else []
          | none, _ => []) := by
      rw [pollWeatherStep, hchange]
      rfl
    refine ⟨?_, ?_, ?_⟩
    · rintro ⟨e1, e2, he1, he2, hid⟩
      rw [hsends, hobj]
      simp only [he1, he2]
      simp [hid]
    · intro e2 he2 hprev
      have hmap : (pollWeatherStep st d2 j2).2 = st.subscriptions.map Prod.fst := by
        rcases hprev with hnone | ⟨e1, he1, hne⟩
        · rw [hsends, hobj]
          simp only [hnone, he2]
        · rw [hsends, hobj]
          simp only [he1, he2]
          simp [hne]
      exact ⟨hmap, fun e he => by rw [hmap]; exact List.count_eq_one_of_mem hnd he⟩
    · intro hnone
      rw [hsends, hnone]

/-- A demo weather snapshot whose active event is rain. -/
def demoWeather1 : WeatherSnapshot :=
  { weather := [⟨("rain"), ("Rain"), true, 600⟩], discord_invite := none }

/-- Second demo weather snapshot: the storm event is now the active
one. -/
def demoWeather2 : WeatherSnapshot :=
  { weather := [⟨("storm"), ("Storm"), true, 300⟩], discord_invite := none }

/-- A state with one subscriber that has already seen
`demoWeather1`. -/
def demoWeatherState : ServerState :=
  { initialState with
      subscriptions := [(("u@x.com"), ["itemA"])]
      latestWeatherDataJSON := some ("w1")
      latestWeatherDataObj := some demoWeather1 }

theorem pollWeatherAPI_secondOrder_witness :
    (pollWeatherStep demoWeatherState demoWeather2 ("w2")).2 = [("u@x.com")] := by
  have h := (pollWeatherAPI_secondOrder demoWeatherState demoWeather1 demoWeather2
      ("w1") ("w2") rfl rfl (by decide) (by decide)).2.1
      ⟨("storm"), ("Storm"), true, 300⟩ (by decide)
      (Or.inr ⟨⟨("rain"), ("Rain"), true, 600⟩, by decide, by decide⟩)
  rw [h.1]
  rfl

theorem mhas_mset {α : Type} (m : MapL α) (k q : String) (v : α)
    (h : mhas m q = true) : mhas (mset m k v) q = true := by
  by_cases hq : q = k
  · subst hq
    simp [mhas, mget_mset_self]
  · rw [mhas, mget_mset_ne m k q v hq]
    exact h

theorem requestVerification_frame (st : ServerState) (email token : String)
    (now : Nat) (outcome : MailOutcome) :
    (requestVerificationEndpoint st email token now outcome).1.subscriptions
        = st.subscriptions
    ∧ (requestVerificationEndpoint st email token now outcome).1.verifiedEmails
        = st.verifiedEmails := by
  unfold requestVerificationEndpoint sendVerificationEmail
  split
  · exact ⟨rfl, rfl⟩
  · split
    · exact ⟨rfl, rfl⟩
    · cases outcome <;> exact ⟨rfl, rfl⟩

theorem verifyEndpoint_cases (st : ServerState) (email token : String)
    (now : Nat) :
    (verifyEndpoint st email token now).1 = st ∨
    ((verifyEndpoint st email token now).1.subscriptions = st.subscriptions
      ∧ (verifyEndpoint st email token now).1.verifiedEmails =
          mset st.verifiedEmails email ⟨true, now⟩) := by
  unfold verifyEndpoint
  split
  · exact Or.inl rfl
  · split
    · exact Or.inl rfl
    · split
      · exact Or.inr ⟨rfl, rfl⟩
      · exact Or.inl rfl

theorem subscribeEndpoint_cases (st : ServerState) (email : String)
    (items : List String) :
    (subscribeEndpoint st email items).1 = st ∨
    (mhas st.verifiedEmails email = true
      ∧ (subscribeEndpoint st email items).1.verifiedEmails = st.verifiedEmails
      ∧ (subscribeEndpoint st email items).1.subscriptions =
          mset st.subscriptions email items) := by
  unfold subscribeEndpoint
  split
  · exact Or.inl rfl
  · split
    · rename_i hv
      exact Or.inr ⟨hv, rfl, rfl⟩
    · exact Or.inl rfl

theorem unsubEndpoint_cases (st : ServerState) (email : String) :
    (unsubEndpoint st email).1 = st ∨
    ((unsubEndpoint st email).1.subscriptions = mdelete st.subscriptions email
      ∧ (unsubEndpoint st email).1.verifiedEmails =
          mdelete st.verifiedEmails email) := by
  unfold unsubEndpoint
  split
  · exact Or.inl rfl
  · split
    · exact Or.inr ⟨rfl, rfl⟩
    · exact Or.inl rfl

theorem pollStockStep_frame (st : ServerState) (data : StockSnapshot)
    (json : String) :
    (pollStockStep st data json).1.subscriptions = st.subscriptions
    ∧ (pollStockStep st data json).1.verifiedEmails = st.verifiedEmails
    ∧ (pollStockStep st data json).1.pendingVerifications =
        st.pendingVerifications := by
  unfold pollStockStep
  split <;> exact ⟨rfl, rfl, rfl⟩

theorem pollWeatherStep_frame (st : ServerState) (data : WeatherSnapshot)
    (json : String) :
    (pollWeatherStep st data json).1.subscriptions = st.subscriptions
    ∧ (pollWeatherStep st data json).1.verifiedEmails = st.verifiedEmails
    ∧ (pollWeatherStep st data json).1.pendingVerifications =
        st.pendingVerifications := by
  unfold pollWeatherStep
  split <;> exact ⟨rfl, rfl, rfl⟩

/-- Claim C4: in every reachable state, an email holding a
subscription is present in the verified-emails map. -/
theorem reachable_subscription_verified (st : ServerState)
    (h : Reachable st) :
    ∀ e s, mget st.subscriptions e = some s →
      mhas st.verifiedEmails e = true := by
  induction h with
  | init =>
    intro e s hs
    exact Option.noConfusion hs
  | requestVerification st0 email token now outcome h ih =>
    intro e s hs
    obtain ⟨hsub, hver⟩ := requestVerification_frame st0 email token now outcome
    rw [hsub] at hs
    rw [hver]
    exact ih e s hs
  | verify st0 email token now h ih =>
    intro e s hs
    rcases verifyEndpoint_cases st0 email token now with heq | ⟨hsub, hver⟩
    · rw [heq] at hs ⊢
      exact ih e s hs
    · rw [hsub] at hs
      rw [hver]
      exact mhas_mset _ _ _ _ (ih e s hs)
  | subscribe st0 email items h ih =>
    intro e s hs
    rcases subscribeEndpoint_cases st0 email items with heq | ⟨hv, hver, hsub⟩
    · rw [heq] at hs ⊢
      exact ih e s hs
    · rw [hver]
      rw [hsub] at hs
      by_cases he : e = email
      · subst he
        exact hv
      · rw [mget_mset_ne _ _ _ _ he] at hs
        exact ih e s hs
  | unsub st0 email h ih =>
    intro e s hs
    rcases unsubEndpoint_cases st0 email with heq | ⟨hsub, hver⟩
    · rw [heq] at hs ⊢
      exact ih e s hs
    · rw [hsub] at hs
      rw [hver]
      by_cases he : e = email
      · subst he
        rw [mget_mdelete_self] at hs
        exact Option.noConfusion hs
      · rw [mget_mdelete_ne _ _ _ he] at hs
        rw [mhas, mget_mdelete_ne _ _ _ he]
        exact ih e s hs
  | sweep st0 now h ih =>
    intro e s hs
    exact ih e s hs
  | pollStock st0 data json h ih =>
    intro e s hs
    obtain ⟨hsub, hver, _⟩ := pollStockStep_frame st0 data json
    rw [hsub] at hs
    rw [hver]
    exact ih e s hs
  | pollWeather st0 data json h ih =>
    intro e s hs
    obtain ⟨hsub, hver, _⟩ := pollWeatherStep_frame st0 data json
    rw [hsub] at hs
    rw [hver]
    exact ih e s hs

theorem reachable_subscription_verified_witness :
    mhas ((subscribeEndpoint ((verifyEndpoint
        ((requestVerificationEndpoint initialState ("u@x.com") ("tok") 0
          (.sent ("ok"))).1) ("u@x.com") ("tok") 5).1) ("u@x.com")
        (["itemA"])).1).verifiedEmails ("u@x.com") = true := by
  refine reachable_subscription_verified _ ?_ ("u@x.com") (["itemA"]) ?_
  · exact Reachable.subscribe _ _ _ (Reachable.verify _ _ _ _
      (Reachable.requestVerification _ _ _ _ _ Reachable.init))
  · decide

theorem verifyEndpoint_success (st : ServerState) (email token : String)
    (now : Nat) (hsucc : (verifyEndpoint st email token now).2 = true) :
    ¬(email = "" ∨ token = "") ∧
    ∃ v, mget st.pendingVerifications email = some v ∧ v.token = token ∧
      verifyEndpoint st email token now =
        ({ st with
            pendingVerifications := mdelete st.pendingVerifications email
            verifiedEmails := mset st.verifiedEmails email ⟨true, now⟩ },
          true) := by
  by_cases hguard : email = "" ∨ token = ""
  · rw [verifyEndpoint, if_pos hguard] at hsucc
    exact absurd hsucc (by simp)
  · rcases hv : mget st.pendingVerifications email with _ | v
    · rw [verifyEndpoint, if_neg hguard] at hsucc
      simp only [hv] at hsucc
      exact absurd hsucc (by simp)
    · by_cases htok : v.token = token
      · refine ⟨hguard, v, rfl, htok, ?_⟩
        rw [verifyEndpoint, if_neg hguard]
        simp only [hv]
        rw [if_pos htok]
      · rw [verifyEndpoint, if_neg hguard] at hsucc
        simp only [hv] at hsucc
        rw [if_neg htok] at hsucc
        exact absurd hsucc (by simp)

theorem verifyEndpoint_fail_frame (st : ServerState) (e t : String) (n : Nat)
    (hfail : (verifyEndpoint st e t n).2 = false) :
    (verifyEndpoint st e t n).1 = st := by
  by_cases hguard : e = "" ∨ t = ""
  · rw [verifyEndpoint, if_pos hguard]
  · rcases hv : mget st.pendingVerifications e with _ | v
    · rw [verifyEndpoint, if_neg hguard]
      simp only [hv]
    · by_cases htok : v.token = t
      · exfalso
        rw [verifyEndpoint, if_neg hguard] at hfail
        simp only [hv] at hfail
        rw [if_pos htok] at hfail
        exact absurd hfail (by simp)
      · rw [verifyEndpoint, if_neg hguard]
        simp only [hv]
        rw [if_neg htok]

/-- Claim C5: the verification token is single-use — after a
successful verify, repeating the same (email, token) call fails and
changes nothing; a verify succeeds only when a pending entry exists
for the email with exactly that token; a failed verify changes no
state. -/
theorem verify_token_single_use (st : ServerState) (email token : String)
    (now now2 : Nat) (hsucc : (verifyEndpoint st email token now).2 = true) :
    (verifyEndpoint (verifyEndpoint st email token now).1 email token now2 =
      ((verifyEndpoint st email token now).1, false))
    ∧ (∃ v, mget st.pendingVerifications email = some v ∧ v.token = token)
    ∧ (∀ e t n, (verifyEndpoint st e t n).2 = false →
        (verifyEndpoint st e t n).1 = st) := by
  obtain ⟨hguard, v, hv, htok, heq⟩ :=
    verifyEndpoint_success st email token now hsucc
  have hex : ∃ w, mget st.pendingVerifications email = some w ∧
      w.token = token := ⟨v, hv, htok⟩
  refine ⟨?_, hex, fun e t n => verifyEndpoint_fail_frame st e t n⟩
  have hst1 : (verifyEndpoint st email token now).1 =
      { st with
          pendingVerifications := mdelete st.pendingVerifications email
          verifiedEmails := mset st.verifiedEmails email ⟨true, now⟩ } := by
    rw [heq]
  rw [hst1, verifyEndpoint, if_neg hguard]
  simp only [mget_mdelete_self]

/-- A state holding one pending verification for a\@x.com created at
time 0. -/
def demoPendingState : ServerState :=
  { initialState with
      pendingVerifications := [(("a@x.com"), ⟨("tok"), 0⟩)] }

theorem verify_token_single_use_witness :
    verifyEndpoint (verifyEndpoint demoPendingState ("a@x.com") ("tok") 10).1
        ("a@x.com") ("tok") 20 =
      ((verifyEndpoint demoPendingState ("a@x.com") ("tok") 10).1, false) :=
  (verify_token_single_use demoPendingState ("a@x.com") ("tok") 10 20
    (by decide)).1

/-- The pending-verification map conjured by `expirySweep`, spelled
out. -/
theorem expirySweep_pending (st : ServerState) (now : Nat) :
    (expirySweep st now).pendingVerifications =
      st.pendingVerifications.filter
        (fun p => !(decide (now - p.2.timestamp > expirationTime))) := rfl

/-- Claim C6, amended: an entry created at `T` survives every sweep
run at a time `s ≤ T + 24h` and can still be successfully verified
(in particular at `T + 23h59m`); a sweep run at a time strictly after
`T + 24h` deletes it, after which verification fails.  The claim as
frozen also asserted that verification can NEVER succeed at or after
`T + 24h01m`, which the code refutes: the verify handler does not
check age, so the entry stays verifiable until a sweep actually runs
past the 24h mark (see the counterexample). -/
theorem pending_expiry_window (st : ServerState) (email tok : String)
    (T s now : Nat) (he : email ≠ "") (ht : tok ≠ "")
    (hp : mget st.pendingVerifications email = some ⟨tok, T⟩)
    (hnd : (st.pendingVerifications.map Prod.fst).Nodup) :
    (s ≤ T + expirationTime →
      mget (expirySweep st s).pendingVerifications email = some ⟨tok, T⟩
      ∧ (verifyEndpoint (expirySweep st s) email tok now).2 = true)
    ∧ (T + expirationTime < s →
      mget (expirySweep st s).pendingVerifications email = none
      ∧ (verifyEndpoint (expirySweep st s) email tok now).2 = false) := by
  have hguard : ¬(email = "" ∨ tok = "") := by
    rintro (h | h)
    · exact he h
    · exact ht h
  constructor
  · intro hle
    have hage : ¬(s - T > expirationTime) := by
      rw [Nat.not_lt]
      exact Nat.sub_le_iff_le_add.mpr (by rw [Nat.add_comm]; exact hle)
    have hkeep : mget (expirySweep st s).pendingVerifications email =
        some ⟨tok, T⟩ := by
      rw [expirySweep_pending]
      exact mget_filter_of_pred _ _ _ _ hp
        (by rw [decide_eq_false hage]; rfl)
    refine ⟨hkeep, ?_⟩
    rw [verifyEndpoint, if_neg hguard]
    simp [hkeep]
  · intro hlt
    have hage : s - T > expirationTime := by
      exact Nat.lt_sub_of_add_lt (by rw [Nat.add_comm]; exact hlt)
    have hgone : mget (expirySweep st s).pendingVerifications email = none := by
      rw [expirySweep_pending]
      exact mget_filter_of_not_pred _ _ _ _ hnd hp
        (by rw [decide_eq_true hage]; rfl)
    refine ⟨hgone, ?_⟩
    rw [verifyEndpoint, if_neg hguard]
    simp only [hgone]

theorem pending_expiry_window_witness :
    (mget (expirySweep demoPendingState 86340000).pendingVerifications
        ("a@x.com") = some ⟨("tok"), 0⟩
      ∧ (verifyEndpoint (expirySweep demoPendingState 86340000) ("a@x.com")
          ("tok") 86340000).2 = true)
    ∧ (mget (expirySweep demoPendingState 90000000).pendingVerifications
        ("a@x.com") = none
      ∧ (verifyEndpoint (expirySweep demoPendingState 90000000) ("a@x.com")
          ("tok") 90000000).2 = false) :=
  ⟨(pending_expiry_window demoPendingState ("a@x.com") ("tok") 0 86340000
      86340000 (by decide) (by decide) (by decide) (by decide)).1 (by decide),
   (pending_expiry_window demoPendingState ("a@x.com") ("tok") 0 90000000
      90000000 (by decide) (by decide) (by decide) (by decide)).2 (by decide)⟩

/-- Claim C6 counterexample: a pending verification created at
T = 0 ms survives the sweep that runs at exactly T + 24h (the age
comparison is strict), and a verify call at T + 24h01m = 86460000 ms
still succeeds, refuting the frozen claim that verification can
never succeed at or after T + 24h01m. -/
theorem verify_succeeds_at_24h01m :
    (verifyEndpoint (expirySweep demoPendingState 86400000) ("a@x.com")
        ("tok") 86460000).2 = true := by
  decide

/-- Claim C7: subscribe replaces rather than merges — after
subscribing `email` to `s1` and then to `s2` (both non-empty, the
email verified), the stored watch set is exactly `s2`, so an element
of `s1` outside `s2` is not retained. -/
theorem subscribe_replaces (st : ServerState) (email : String)
    (s1 s2 : List String) (he : email ≠ "") (h1 : s1 ≠ []) (h2 : s2 ≠ [])
    (hv : mhas st.verifiedEmails email = true) :
    mget (subscribeEndpoint (subscribeEndpoint st email s1).1 email
        s2).1.subscriptions email = some s2
    ∧ ∀ x, x ∈ s1 → x ∉ s2 →
        ∀ w, mget (subscribeEndpoint (subscribeEndpoint st email s1).1 email
          s2).1.subscriptions email = some w → x ∉ w := by
  have hlen1 : ¬(email = "" ∨ s1.length = 0) := by
    rintro (h | h)
    · exact he h
    · exact h1 (List.length_eq_zero.mp h)
  have hlen2 : ¬(email = "" ∨ s2.length = 0) := by
    rintro (h | h)
    · exact he h
    · exact h2 (List.length_eq_zero.mp h)
  have hst1 : (subscribeEndpoint st email s1).1 =
      { st with subscriptions := mset st.subscriptions email s1 } := by
    rw [subscribeEndpoint, if_neg hlen1, if_pos hv]
  have hv1 : mhas ((subscribeEndpoint st email s1).1).verifiedEmails email
      = true := by
    rw [hst1]
    exact hv
  have hst2 : (subscribeEndpoint (subscribeEndpoint st email s1).1 email
      s2).1 = { (subscribeEndpoint st email s1).1 with
        subscriptions :=
          mset ((subscribeEndpoint st email s1).1).subscriptions email s2 } := by
    rw [subscribeEndpoint, if_neg hlen2, if_pos hv1]
  have hget : mget (subscribeEndpoint (subscribeEndpoint st email s1).1 email
      s2).1.subscriptions email = some s2 := by
    rw [hst2]
    exact mget_mset_self _ _ _
  refine ⟨hget, fun x hx1 hx2 w hw => ?_⟩
  rw [hget] at hw
  rw [← Option.some.inj hw]
  exact hx2

/-- A state in which u\@x.com is already verified. -/
def demoVerifiedState : ServerState :=
  { initialState with verifiedEmails := [(("u@x.com"), ⟨true, 0⟩)] }

theorem subscribe_replaces_witness :
    mget (subscribeEndpoint (subscribeEndpoint demoVerifiedState ("u@x.com")
        (["itemA"])).1 ("u@x.com") (["itemB"])).1.subscriptions ("u@x.com")
      = some ["itemB"] :=
  (subscribe_replaces demoVerifiedState ("u@x.com") (["itemA"]) (["itemB"])
    (by decide) (by decide) (by decide) (by decide)).1

/-- Claim C8: unsubscribing an email with no subscription reports
not-found and returns the state completely unchanged; unsubscribing a
subscribed email removes its subscription. -/
theorem unsub_not_found_or_removes (st : ServerState) (email : String)
    (he : email ≠ "") :
    (mget st.subscriptions email = none →
      unsubEndpoint st email =
        (st, .text ("Email not found in subscriptions.")))
    ∧ (∀ s, mget st.subscriptions email = some s →
        mget (unsubEndpoint st email).1.subscriptions email = none) := by
  constructor
  · intro hn
    have hhas : ¬(mhas st.subscriptions email = true) := by
      rw [mhas, hn]
      simp
    rw [unsubEndpoint, if_neg he, if_neg hhas]
  · intro s hs
    have hhas : mhas st.subscriptions email = true := by
      rw [mhas, hs]
      rfl
    rw [unsubEndpoint, if_neg he, if_pos hhas]
    exact mget_mdelete_self _ _

theorem unsub_not_found_or_removes_witness :
    unsubEndpoint initialState ("ghost@x.com") =
      (initialState, .text ("Email not found in subscriptions.")) :=
  (unsub_not_found_or_removes initialState ("ghost@x.com") (by decide)).1 rfl

/-- Claim C9: request-verification registers the fresh pending token
(overwriting any prior pending entry for the email) and answers
success regardless of the mail-relay outcome; a relay failure leaves
both the new state and the HTTP response identical to those of a
successful send. -/
theorem requestVerification_fireAndForget (st : ServerState)
    (email token : String) (now : Nat) (o1 o2 : MailOutcome)
    (he : email ≠ "") (hs : mhas st.subscriptions email = false) :
    ((requestVerificationEndpoint st email token now o1).1 =
      { st with pendingVerifications := mset st.pendingVerifications email ⟨token, now⟩ })
    ∧ (requestVerificationEndpoint st email token now o1).2.1 =
        .ok ("Verification email sent. Please check your inbox.")
    ∧ mget (requestVerificationEndpoint st email token now
        o1).1.pendingVerifications email = some ⟨token, now⟩
    ∧ (requestVerificationEndpoint st email token now o1).1 =
        (requestVerificationEndpoint st email token now o2).1
    ∧ (requestVerificationEndpoint st email token now o1).2.1 =
        (requestVerificationEndpoint st email token now o2).2.1 := by
  have hstep : ∀ o : MailOutcome,
      requestVerificationEndpoint st email token now o =
        ({ st with pendingVerifications := mset st.pendingVerifications email ⟨token, now⟩ },
          .ok ("Verification email sent. Please check your inbox."),
          (sendVerificationEmail st email token now o).2) := by
    intro o
    rw [requestVerificationEndpoint, if_neg he, if_neg (by simp [hs])]
    cases o <;> rfl
  refine ⟨?_, ?_, ?_, ?_, ?_⟩
  · rw [hstep o1]
  · rw [hstep o1]
  · rw [hstep o1]
    exact mget_mset_self _ _ _
  · rw [hstep o1, hstep o2]
  · rw [hstep o1, hstep o2]

theorem requestVerification_fireAndForget_witness :
    (requestVerificationEndpoint initialState ("u@x.com") ("tok") 0
        (.sendError ("relay down"))).2.1 =
      .ok ("Verification email sent. Please check your inbox.")
    ∧ mget (requestVerificationEndpoint initialState ("u@x.com") ("tok") 0
        (.sendError ("relay down"))).1.pendingVerifications ("u@x.com")
      = some ⟨("tok"), 0⟩ := by
  have h := requestVerification_fireAndForget initialState ("u@x.com")
    ("tok") 0 (.sendError ("relay down")) (.sent ("ok")) (by decide) rfl
  exact ⟨h.2.1, h.2.2.1⟩

/-- Claim C10: the expiry sweep leaves the subscriptions map, the
verified-emails map and the last-seen snapshot variables untouched;
every binding it keeps was a binding of the original map aged at
most 24 hours; and every binding aged at most 24 hours survives
unchanged (so only entries strictly older than 24 hours are ever
deleted). -/
theorem expirySweep_frame (st : ServerState) (now : Nat) :
    (expirySweep st now).subscriptions = st.subscriptions
    ∧ (expirySweep st now).verifiedEmails = st.verifiedEmails
    ∧ (expirySweep st now).latestStockDataJSON = st.latestStockDataJSON
    ∧ (expirySweep st now).latestStockDataObj = st.latestStockDataObj
    ∧ (expirySweep st now).latestWeatherDataJSON = st.latestWeatherDataJSON
    ∧ (expirySweep st now).latestWeatherDataObj = st.latestWeatherDataObj
    ∧ (∀ e p, mget (expirySweep st now).pendingVerifications e = some p →
        (e, p) ∈ st.pendingVerifications
          ∧ now - p.timestamp ≤ expirationTime)
    ∧ (∀ e p, mget st.pendingVerifications e = some p →
        now - p.timestamp ≤ expirationTime →
        mget (expirySweep st now).pendingVerifications e = some p) := by
  refine ⟨rfl, rfl, rfl, rfl, rfl, rfl, ?_, ?_⟩
  · intro e p h
    rw [expirySweep_pending] at h
    obtain ⟨hmem, hpred⟩ := mget_filter_mem _ _ _ _ h
    refine ⟨hmem, ?_⟩
    have hdec : decide (now - p.timestamp > expirationTime) = false := by
      rcases hb : decide (now - p.timestamp > expirationTime) with _ | _
      · rfl
      · rw [hb] at hpred
        exact absurd hpred (by simp)
    exact Nat.not_lt.mp (of_decide_eq_false hdec)
  · intro e p h hage
    rw [expirySweep_pending]
    refine mget_filter_of_pred _ _ _ _ h ?_
    have hdec : decide (now - p.timestamp > expirationTime) = false :=
      decide_eq_false (Nat.not_lt.mpr hage)
    rw [hdec]
    rfl

/-- A state holding one fresh pending verification, to evaluate the
sweep frame property concretely. -/
def demoSweepState : ServerState :=
  { initialState with
      pendingVerifications := [(("fresh@x.com"), ⟨("t1"), 1000⟩)] }

theorem expirySweep_frame_witness :
    mget (expirySweep demoSweepState 1500).pendingVerifications
        ("fresh@x.com") = some ⟨("t1"), 1000⟩ :=
  ((expirySweep_frame demoSweepState 1500).2.2.2.2.2.2.2) ("fresh@x.com")
    ⟨("t1"), 1000⟩ rfl (by decide)

end Botemail
